import Mathlib

/-!
Verification of the hint-propagation core of
src/compiler/serializer-for-background-compilation.cc.

The development shallowly embeds the data model of that file:
HintSets (class Hints), the per-function dataflow Environment with its
dead/revive discipline and its Merge join, the register addressing
scheme (parameters, locals, accumulator, context, and the
function-closure pseudo-register), the register-to-accumulator transfer
functions, argument packaging via ExportRegisterHints, the child
serializer's spread padding, the bailout-on-uninitialized-feedback
logic, and the serialize-at-most-once guard of Run.

Runtime heap handles (constants, maps, function blueprints, shared
function infos, feedback vectors) are modelled as natural numbers; the
three kinds of sets in a HintSet are plain finite sets of such handles.
CHECK failures (fatal, release-mode aborts) are modelled by returning
none from the affected operation; DCHECK and SLOW_DCHECK assertions are
compiled out of release builds and are modelled as no-ops.
-/

set_option maxHeartbeats 1000000

namespace V8Serializer

/-- A HintSet (class Hints): a triple of deduplicating sets holding
constants, maps, and function blueprints, each modelled by a handle. -/
structure Hints where
  constants : Finset Nat
  maps : Finset Nat
  blueprints : Finset Nat
deriving DecidableEq

namespace Hints

/-- Hints::Hints(Zone*): the three sets start empty. Also models
Hints::Clear(), which empties all three sets. -/
def empty : Hints := ⟨∅, ∅, ∅⟩

/-- Hints::AddConstant: insert a constant handle. -/
def addConstant (h : Hints) (c : Nat) : Hints :=
  { h with constants := insert c h.constants }

/-- Hints::AddMap: insert a map handle. -/
def addMap (h : Hints) (m : Nat) : Hints :=
  { h with maps := insert m h.maps }

/-- Hints::AddFunctionBlueprint: insert a blueprint handle. -/
def addBlueprint (h : Hints) (b : Nat) : Hints :=
  { h with blueprints := insert b h.blueprints }

/-- Hints::Add(other): insert every constant, map and blueprint of the
other hint set, i.e. three-way set union. -/
def add (h other : Hints) : Hints :=
  ⟨h.constants ∪ other.constants, h.maps ∪ other.maps,
    h.blueprints ∪ other.blueprints⟩

end Hints

/-- The environment of one running analysis
(SerializerForBackgroundCompilation::Environment). The ephemeral hints
vector is laid out as parameters, then registers, then accumulator,
then current context; the dead state is the empty ephemeral vector. -/
structure Environment where
  parameterCount : Nat
  registerCount : Nat
  closureHints : Hints
  returnValueHints : Hints
  ephemeralHints : List Hints
deriving DecidableEq

namespace Environment

/-- Environment::accumulator_index. -/
def accumulatorIndex (e : Environment) : Nat :=
  e.parameterCount + e.registerCount

/-- Environment::current_context_index. -/
def currentContextIndex (e : Environment) : Nat :=
  e.accumulatorIndex + 1

/-- Environment::ephemeral_hints_size. -/
def ephemeralHintsSize (e : Environment) : Nat :=
  e.currentContextIndex + 1

/-- Environment::IsDead: the ephemeral vector is empty. -/
def IsDead (e : Environment) : Bool :=
  e.ephemeralHints.isEmpty

/-- Environment::Kill: clear the ephemeral vector. -/
def kill (e : Environment) : Environment :=
  { e with ephemeralHints := [] }

/-- std::vector::resize with empty HintSets as the fill value: truncate
to the requested length, or extend with empty HintSets. -/
def listResize (l : List Hints) (n : Nat) : List Hints :=
  l.take n ++ List.replicate (n - l.length) Hints.empty

/-- Environment::Revive: resize the ephemeral vector back to the full
layout size, filling with empty HintSets. -/
def revive (e : Environment) : Environment :=
  { e with ephemeralHints := listResize e.ephemeralHints e.ephemeralHintsSize }

/-- Environment::Merge(other). The two CHECK_EQ count assertions, the
CHECK(!IsDead()) after adopting a dead receiver's hints, and the
CHECK_EQ on the ephemeral sizes are fatal in release builds; a failing
check is modelled as none. In the dead-receiver branch the code adopts
the other ephemeral vector and returns without touching
return_value_hints (the SLOW_DCHECK there is debug-only). -/
def merge (e other : Environment) : Option Environment :=
  if e.parameterCount = other.parameterCount then
    if e.registerCount = other.registerCount then
      if e.IsDead then
        if other.IsDead then none
        else some { e with ephemeralHints := other.ephemeralHints }
      else
        if e.ephemeralHints.length = other.ephemeralHints.length then
          some { e with
            ephemeralHints :=
              List.zipWith Hints.add e.ephemeralHints other.ephemeralHints,
            returnValueHints := e.returnValueHints.add other.returnValueHints }
        else none
    else none
  else none

/-- An alive environment carries the full ephemeral layout; a dead one
carries the empty vector. Maintained by the constructors, Kill, Revive
and every transfer function. -/
def wellFormed (e : Environment) : Prop :=
  e.ephemeralHints.length = 0 ∨ e.ephemeralHints.length = e.ephemeralHintsSize

/-- The reachability/failure condition of the CHECK_EQ on ephemeral
sizes inside Merge: it is reached when the count checks pass and the
receiver is alive, and it fails when the two ephemeral vectors have
different lengths. -/
def mergeAbortsAtSizeCheck (e other : Environment) : Bool :=
  decide (e.parameterCount = other.parameterCount) &&
  decide (e.registerCount = other.registerCount) &&
  !e.IsDead &&
  !(decide (e.ephemeralHints.length = other.ephemeralHints.length))

end Environment

/-- An interpreter register as used by the transfer functions: a
parameter (negative encoded index in the source, canonicalized here),
a local register, the current-context register, or the
function-closure pseudo-register. -/
inductive Reg where
  | param (i : Nat)
  | loc (i : Nat)
  | currentContext
  | functionClosure
deriving DecidableEq

namespace Environment

/-- Environment::RegisterToLocalIndex: context maps to the context
slot, parameters to their parameter index, other registers to
parameter_count + index. The function-closure case never reaches this
function (register_hints redirects it first). -/
def registerToLocalIndex (e : Environment) : Reg → Nat
  | .currentContext => e.currentContextIndex
  | .param i => i
  | .loc i => e.parameterCount + i
  | .functionClosure => 0

/-- Environment::register_hints (read): the function-closure
pseudo-register yields closure_hints; every other register reads the
ephemeral slot at its local index. -/
def registerHints (e : Environment) (r : Reg) : Hints :=
  match r with
  | .functionClosure => e.closureHints
  | _ => e.ephemeralHints.getD (e.registerToLocalIndex r) Hints.empty

/-- Writing through the mutable reference returned by
Environment::register_hints: the function-closure pseudo-register
aliases closure_hints, every other register its ephemeral slot. -/
def writeRegisterHints (e : Environment) (r : Reg) (h : Hints) : Environment :=
  match r with
  | .functionClosure => { e with closureHints := h }
  | _ => { e with
      ephemeralHints := e.ephemeralHints.set (e.registerToLocalIndex r) h }

/-- Read of Environment::accumulator_hints. -/
def accumulatorHints (e : Environment) : Hints :=
  e.ephemeralHints.getD e.accumulatorIndex Hints.empty

/-- Write of Environment::accumulator_hints. -/
def setAccumulator (e : Environment) (h : Hints) : Environment :=
  { e with ephemeralHints := e.ephemeralHints.set e.accumulatorIndex h }

/-- Environment::ClearEphemeralHints: call Clear() on every ephemeral
HintSet (the vector keeps its length). -/
def clearEphemeralHints (e : Environment) : Environment :=
  { e with ephemeralHints := e.ephemeralHints.map (fun _ => Hints.empty) }

/-- Environment::ExportRegisterHints(first, count, dst), exactly as the
source: first resize dst to dst.size() + count (filling with empty
HintSets), then push_back the hints of registers first.index() + i for
i = 0..count-1. -/
def exportRegisterHints (e : Environment) (firstIndex count : Nat)
    (dst : List Hints) : List Hints :=
  let resized := listResize dst (dst.length + count)
  resized ++ (List.range count).map
    (fun i => e.registerHints (Reg.loc (firstIndex + i)))

end Environment

/-- The heap queries VisitGetSuperConstructor makes about a constant in
the accumulator: whether it is a JSFunction, the prototype object of
its map, and whether that prototype is a heap object whose map is a
constructor. -/
structure HeapModel where
  isJSFunction : Nat → Bool
  prototypeOf : Nat → Nat
  prototypeIsConstructor : Nat → Bool

/-- The register-writing and hint-moving transfer functions, one
constructor per visitor shape: the load-constant family (VisitLdaSmi,
VisitLdaTrue, VisitLdaConstant, ...), VisitLdar, VisitStar, VisitMov,
VisitGetSuperConstructor (the one other visitor that writes a register
operand through register_hints), VisitReturn, the conservative
ClearEphemeralHints catch-all (which also covers the
unconditional-jump and unsupported-opcode cases), and the kill-list
opcodes. -/
inductive Instr where
  | ldaConst (c : Nat)
  | ldar (r : Reg)
  | star (r : Reg)
  | mov (src dst : Reg)
  | getSuperConstructor (dst : Reg)
  | ret
  | clearInstr
  | killInstr
deriving DecidableEq

namespace Environment

/-- VisitLdar: accumulator.Clear() then accumulator.Add(register). -/
def visitLdar (e : Environment) (r : Reg) : Environment :=
  let e1 := e.setAccumulator Hints.empty
  e1.setAccumulator ((e1.accumulatorHints).add (e1.registerHints r))

/-- VisitStar: register.Clear() then register.Add(accumulator), through
the mutable reference returned by register_hints. -/
def visitStar (e : Environment) (r : Reg) : Environment :=
  let e1 := e.writeRegisterHints r Hints.empty
  e1.writeRegisterHints r ((e1.registerHints r).add e1.accumulatorHints)

/-- VisitMov: destination.Clear() then destination.Add(source). -/
def visitMov (e : Environment) (src dst : Reg) : Environment :=
  let e1 := e.writeRegisterHints dst Hints.empty
  e1.writeRegisterHints dst ((e1.registerHints dst).add (e1.registerHints src))

/-- VisitLdaSmi and the rest of the load-constant family:
accumulator.Clear() then accumulator.AddConstant(c). -/
def visitLdaConst (e : Environment) (c : Nat) : Environment :=
  let e1 := e.setAccumulator Hints.empty
  e1.setAccumulator ((e1.accumulatorHints).addConstant c)

/-- VisitReturn: return_value_hints.Add(accumulator) then
ClearEphemeralHints. -/
def visitReturn (e : Environment) : Environment :=
  clearEphemeralHints
    { e with returnValueHints := e.returnValueHints.add e.accumulatorHints }

/-- The set of constants VisitGetSuperConstructor's loop adds to the
destination register: for each constant in the accumulator that is a
JSFunction and whose map's prototype is a constructor heap object, the
prototype object. -/
def superConstructorHints (hm : HeapModel) (acc : Hints) : Finset Nat :=
  (acc.constants.filter (fun c =>
    hm.isJSFunction c = true ∧ hm.prototypeIsConstructor c = true)).image
    hm.prototypeOf

/-- VisitGetSuperConstructor: destination.Clear() through the mutable
reference from register_hints, then, iterating the accumulator's
constants, AddConstant each qualifying prototype into the
destination. -/
def visitGetSuperConstructor (e : Environment) (hm : HeapModel)
    (dst : Reg) : Environment :=
  let e1 := e.writeRegisterHints dst Hints.empty
  let base := e1.registerHints dst
  e1.writeRegisterHints dst
    { base with constants :=
        base.constants ∪ superConstructorHints hm e1.accumulatorHints }

/-- One dispatch step of the bytecode walk. -/
def step (hm : HeapModel) (e : Environment) : Instr → Environment
  | .ldaConst c => e.visitLdaConst c
  | .ldar r => e.visitLdar r
  | .star r => e.visitStar r
  | .mov src dst => e.visitMov src dst
  | .getSuperConstructor dst => e.visitGetSuperConstructor hm dst
  | .ret => e.visitReturn
  | .clearInstr => e.clearEphemeralHints
  | .killInstr => e.kill

/-- A walk: fold the dispatch step over an instruction sequence. -/
def walk (hm : HeapModel) (e : Environment) (prog : List Instr) :
    Environment :=
  prog.foldl (step hm) e

end Environment

/-- Does the instruction write through register_hints to the
function-closure pseudo-register? Exactly the visitors that write a
register operand can: Star, Mov and GetSuperConstructor with that
register as destination. -/
def writesClosureReg : Instr → Bool
  | .star .functionClosure => true
  | .mov _ .functionClosure => true
  | .getSuperConstructor .functionClosure => true
  | _ => false

/-- The shape of the analyzed function, read off its bytecode header:
parameter count, register count, and the incoming new.target register
(a local register index; none when the register is invalid). -/
structure FunctionShape where
  parameterCount : Nat
  registerCount : Nat
  newTargetReg : Option Nat
deriving DecidableEq

/-- The canonical undefined constant of the isolate. -/
def undefinedConstant : Nat := 0

/-- The single-element HintSet holding only the canonical undefined
constant, as built for parameter padding in the inlined constructor. -/
def undefinedHint : Hints := Hints.empty.addConstant undefinedConstant

/-- The top-level Environment constructor: counts from the bytecode
header, closure hints seeded with the concrete closure when known and
with the function blueprint otherwise, everything else empty, and the
ephemeral vector at its full layout size. -/
def mkTopLevelEnvironment (shape : FunctionShape) (closureId : Option Nat)
    (blueprintId : Nat) : Environment :=
  { parameterCount := shape.parameterCount
    registerCount := shape.registerCount
    closureHints :=
      match closureId with
      | some c => Hints.empty.addConstant c
      | none => Hints.empty.addBlueprint blueprintId
    returnValueHints := Hints.empty
    ephemeralHints :=
      List.replicate (shape.parameterCount + shape.registerCount + 2)
        Hints.empty }

/-- The inlined Environment constructor: delegate to the top-level
constructor, copy the first min(arguments.size(), parameter_count)
argument hint sets into the parameter slots, pad the parameter slots
from arguments.size() up to parameter_count with the undefined
singleton, and finally, when the incoming new.target register is valid
and a new_target hint set was supplied, Add it into that register's
slot (which starts out empty).

The value of ephemeral slot i after the two parameter loops:
arguments.getD for the copied prefix, the undefined singleton for the
padded parameter slots, and the empty HintSet the base constructor put
everywhere else. -/
def inlinedSeed (P : Nat) (arguments : List Hints) (i : Nat) : Hints :=
  if i < min arguments.length P then arguments.getD i Hints.empty
  else if arguments.length ≤ i ∧ i < P then undefinedHint
  else Hints.empty

/-- The ephemeral vector after the two parameter-seeding loops of the
inlined constructor: slot i holds the seeded value; the slots the loops
do not touch keep the empty HintSet the base constructor put there. -/
def inlinedEphemeralPre (shape : FunctionShape) (arguments : List Hints) :
    List Hints :=
  (List.range (shape.parameterCount + shape.registerCount + 2)).map
    (inlinedSeed shape.parameterCount arguments)

def mkInlinedEnvironment (shape : FunctionShape) (closureId : Option Nat)
    (blueprintId : Nat) (newTarget : Option Hints)
    (arguments : List Hints) : Environment :=
  let base := mkTopLevelEnvironment shape closureId blueprintId
  let eph1 := inlinedEphemeralPre shape arguments
  let eph2 :=
    match shape.newTargetReg, newTarget with
    | some r, some nt =>
        eph1.set (shape.parameterCount + r)
          ((eph1.getD (shape.parameterCount + r) Hints.empty).add nt)
    | _, _ => eph1
  { base with ephemeralHints := eph2 }

/-- The argument vector the child serializer is constructed with
(RunChildSerializer): under with_spread, copy the arguments, pop_back
the spread element and resize to the callee's parameter count filling
with empty HintSets, then recurse with with_spread false; otherwise
pass the arguments through. Returns the argument vector together with
the with_spread flag of the recursive (environment-building) call. -/
def runChildSerializerCall (paramCount : Nat) (arguments : List Hints)
    (withSpread : Bool) : List Hints × Bool :=
  if withSpread then
    (Environment.listResize arguments.dropLast paramCount, false)
  else (arguments, withSpread)

/-- The IC state of a feedback slot as answered by FeedbackNexus. -/
inductive ICState where
  | uninitialized
  | monomorphic
  | polymorphic
  | megamorphic
deriving DecidableEq

/-- The kind tag of processed feedback stored in the broker cache. -/
inductive FeedbackKind where
  | insufficient
  | globalAccess
  | namedAccess
  | elementAccess
deriving DecidableEq

/-- The broker's processed-feedback cache, keyed by feedback source
(the feedback vector is fixed within one environment, so the slot
index identifies the source). -/
structure Broker where
  cache : List (Nat × FeedbackKind)
deriving DecidableEq

namespace Broker

/-- JSHeapBroker::HasFeedback. -/
def hasFeedback (b : Broker) (s : Nat) : Bool :=
  (b.cache.lookup s).isSome

/-- JSHeapBroker::GetFeedback. -/
def getFeedback (b : Broker) (s : Nat) : Option FeedbackKind :=
  b.cache.lookup s

/-- JSHeapBroker::SetFeedback. -/
def setFeedback (b : Broker) (s : Nat) (k : FeedbackKind) : Broker :=
  ⟨(s, k) :: b.cache⟩

end Broker

/-- SerializerForBackgroundCompilationFlags. -/
structure Flags where
  bailoutOnUninitialized : Bool
  collectSourcePositions : Bool
  osr : Bool
deriving DecidableEq

/-- SerializerForBackgroundCompilation::BailoutOnUninitialized(slot).
A slot is an optional index (none models FeedbackSlot::Invalid); the
nexus IC states of the environment's feedback vector are given by ic.
Returns (killed, environment, broker). Mirrors the source: no bailout
without the flag, none under OSR, none for an invalid slot or a
non-uninitialized nexus; otherwise install an InsufficientFeedback
marker unless the source is already cached, kill the environment, and
return true. -/
def bailoutOnUninitialized (flags : Flags) (ic : Nat → ICState)
    (e : Environment) (b : Broker) (slot : Option Nat) :
    Bool × Environment × Broker :=
  if !flags.bailoutOnUninitialized then (false, e, b)
  else if flags.osr then (false, e, b)
  else
    match slot with
    | none => (false, e, b)
    | some s =>
      if ic s = ICState.uninitialized then
        let b1 := if b.hasFeedback s then b
                  else b.setFeedback s FeedbackKind.insufficient
        (true, e.kill, b1)
      else (false, e, b)

/-- The global already-serialized marks: the set of
(shared_function_info, feedback_vector) pairs for which
SetSerializedForCompilation has run. -/
structure SerializedSet where
  marks : List (Nat × Nat)
deriving DecidableEq

namespace SerializedSet

/-- SharedFunctionInfoRef::IsSerializedForCompilation(feedback_vector). -/
def isMarked (m : SerializedSet) (p : Nat × Nat) : Bool :=
  decide (p ∈ m.marks)

/-- SharedFunctionInfoRef::SetSerializedForCompilation(feedback_vector). -/
def mark (m : SerializedSet) (p : Nat × Nat) : SerializedSet :=
  ⟨p :: m.marks⟩

end SerializedSet

/-- The observable outcome of one SerializerForBackgroundCompilation::Run:
the returned hint set, the updated serialized marks, and whether
TraverseBytecode ran. -/
structure RunOutcome where
  result : Hints
  marks : SerializedSet
  traversed : Bool
deriving DecidableEq

/-- SerializerForBackgroundCompilation::Run on the pair p, where
walkResult abstracts the return_value_hints that TraverseBytecode
would compute: if p is already marked, return empty Hints without
traversing; otherwise mark p, traverse, and return the walk's result. -/
def runSerializer (m : SerializedSet) (p : Nat × Nat) (walkResult : Hints) :
    RunOutcome :=
  if m.isMarked p then ⟨Hints.empty, m, false⟩
  else ⟨walkResult, m.mark p, true⟩

/-- The marks state after a sequence of further Run invocations, each
given as a pair together with its abstracted traversal result. -/
def runSeqMarks (m : SerializedSet) (calls : List ((Nat × Nat) × Hints)) :
    SerializedSet :=
  calls.foldl (fun acc c => (runSerializer acc c.1 c.2).marks) m

/-- Concrete environment used to exhibit the ExportRegisterHints bug:
no parameters, one register r0 holding the constant 7. -/
def c1Env : Environment :=
  { parameterCount := 0, registerCount := 1, closureHints := Hints.empty,
    returnValueHints := Hints.empty,
    ephemeralHints := [Hints.empty.addConstant 7, Hints.empty, Hints.empty] }

/-- Concrete dead environment for the Merge counterexamples. -/
def c2Dead : Environment :=
  { parameterCount := 0, registerCount := 0, closureHints := Hints.empty,
    returnValueHints := Hints.empty, ephemeralHints := [] }

/-- Concrete alive environment with a nonempty return-value hint set. -/
def c2Other : Environment :=
  { parameterCount := 0, registerCount := 0, closureHints := Hints.empty,
    returnValueHints := Hints.empty.addConstant 1,
    ephemeralHints := [Hints.empty, Hints.empty] }

/-- Concrete environment whose accumulator hints differ from its
closure hints, used to exhibit the closure mutation through VisitStar. -/
def c3Env : Environment :=
  { parameterCount := 0, registerCount := 0,
    closureHints := Hints.empty.addConstant 5,
    returnValueHints := Hints.empty,
    ephemeralHints := [Hints.empty.addConstant 7, Hints.empty] }

/-- Concrete alive environment used in several witnesses. -/
def cAlive : Environment :=
  { parameterCount := 1, registerCount := 1,
    closureHints := Hints.empty.addConstant 9,
    returnValueHints := Hints.empty.addConstant 2,
    ephemeralHints :=
      [Hints.empty.addConstant 3, Hints.empty.addMap 4, Hints.empty,
        Hints.empty] }

/-- Concrete heap model on which no constant is a JSFunction, so
GetSuperConstructor adds nothing. -/
def cHeapInert : HeapModel :=
  ⟨fun _ => false, fun c => c, fun _ => false⟩

/-- Concrete heap model on which every constant is a JSFunction whose
map's prototype is the constructor object c + 10. -/
def cHeapRich : HeapModel :=
  ⟨fun _ => true, fun c => c + 10, fun _ => true⟩

/-- Concrete dead environment with the same counts as cAlive. -/
def c10Dead : Environment :=
  { parameterCount := 1, registerCount := 1, closureHints := Hints.empty,
    returnValueHints := Hints.empty, ephemeralHints := [] }

/-- Concrete flag set: bail on uninitialized, no source positions, no
OSR. -/
def c4Flags : Flags := ⟨true, false, false⟩

/-- Concrete nexus IC states: every slot uninitialized. -/
def c4IC : Nat → ICState := fun _ => ICState.uninitialized

/-- Concrete broker with an empty feedback cache. -/
def c4Broker : Broker := ⟨[]⟩

end V8Serializer

namespace V8Serializer

open Environment

theorem Hints.add_self (h : Hints) : h.add h = h := by
  cases h
  simp [Hints.add]

theorem zipWith_add_self (l : List Hints) : List.zipWith Hints.add l l = l := by
  induction l with
  | nil => rfl
  | cons x xs ih => simp [List.zipWith, Hints.add_self, ih]

theorem isDead_iff_length (e : Environment) :
    e.IsDead = true ↔ e.ephemeralHints.length = 0 := by
  cases h : e.ephemeralHints <;> simp [Environment.IsDead, h]

theorem isDead_eq_false_iff (e : Environment) :
    e.IsDead = false ↔ e.ephemeralHints.length ≠ 0 := by
  cases h : e.ephemeralHints <;> simp [Environment.IsDead, h]

/-- C1 (code bug): ExportRegisterHints at the concrete input first = r0,
count = 1, dst = [] produces two appended elements, a spurious empty
HintSet followed by the hints of r0, where the claim (and the function's
own comment) promise exactly the one register HintSet. The resize call
grows dst by count empty HintSets before the push_back loop appends the
register hints again. -/
theorem C1_export_register_hints_bug :
    Environment.exportRegisterHints c1Env 0 1 [] =
      [Hints.empty, Hints.empty.addConstant 7] ∧
    (Environment.exportRegisterHints c1Env 0 1 []).length = 2 := by
  decide

/-- C2 (counterexample): merging an alive environment into a dead
receiver does not union the other return_value_hints into the receiver.
On this concrete pair the other environment returns the constant 1, yet
the merged receiver's return_value_hints stays empty, refuting the
claimed union. -/
theorem C2_dead_merge_counterexample :
    Environment.merge c2Dead c2Other =
      some { c2Dead with ephemeralHints := c2Other.ephemeralHints } ∧
    Environment.merge c2Dead c2Other ≠
      some { c2Dead with
        ephemeralHints := c2Other.ephemeralHints,
        returnValueHints :=
          c2Dead.returnValueHints.add c2Other.returnValueHints } := by
  decide

/-- C2 (amended): when the receiver of Merge is dead, the other
environment is alive, and the counts agree, Merge adopts the other
ephemeral hints wholesale and leaves return_value_hints unchanged (the
code only asserts, in debug builds, that the receiver's
return_value_hints already include the other's). -/
theorem C2_dead_merge_adopts (e other : Environment)
    (hp : e.parameterCount = other.parameterCount)
    (hr : e.registerCount = other.registerCount)
    (hd : e.IsDead = true) (ha : other.IsDead = false) :
    Environment.merge e other =
      some { e with ephemeralHints := other.ephemeralHints } ∧
    (Environment.merge e other).map Environment.returnValueHints =
      some e.returnValueHints := by
  constructor <;> simp [Environment.merge, hp, hr, hd, ha]

/-- C2 witness: the amended dead-receiver merge at a concrete pair. -/
theorem C2_dead_merge_adopts_witness :
    Environment.merge c2Dead c2Other =
      some { c2Dead with ephemeralHints := c2Other.ephemeralHints } ∧
    (Environment.merge c2Dead c2Other).map Environment.returnValueHints =
      some c2Dead.returnValueHints :=
  C2_dead_merge_adopts c2Dead c2Other rfl rfl rfl rfl

/-- C7: Kill is idempotent, and Revive after Kill restores an ephemeral
vector of the original (full-layout) length with every HintSet empty. -/
theorem C7_kill_idempotent_revive (e : Environment)
    (h : e.ephemeralHints.length = e.ephemeralHintsSize) :
    e.kill.kill = e.kill ∧
    e.kill.revive.ephemeralHints.length = e.ephemeralHints.length ∧
    ∀ hs ∈ e.kill.revive.ephemeralHints, hs = Hints.empty := by
  refine ⟨rfl, ?_, ?_⟩
  · simp [Environment.kill, Environment.revive, Environment.listResize,
      Environment.ephemeralHintsSize, Environment.currentContextIndex,
      Environment.accumulatorIndex] at h ⊢
    omega
  · intro hs hmem
    simp [Environment.kill, Environment.revive, Environment.listResize] at hmem
    exact hmem.2

/-- C7 witness: kill/revive round trip on a concrete alive environment. -/
theorem C7_kill_idempotent_revive_witness :
    cAlive.kill.kill = cAlive.kill ∧
    cAlive.kill.revive.ephemeralHints.length = cAlive.ephemeralHints.length ∧
    ∀ hs ∈ cAlive.kill.revive.ephemeralHints, hs = Hints.empty :=
  C7_kill_idempotent_revive cAlive (by decide)

/-- C8 (counterexample): Merge of a dead environment with a deep copy of
itself does not leave it unchanged: the dead branch adopts the copy's
empty ephemeral vector and then fails the liveness CHECK, aborting. -/
theorem C8_merge_self_counterexample :
    Environment.merge c2Dead c2Dead = none ∧
    Environment.merge c2Dead c2Dead ≠ some c2Dead := by
  decide

/-- C8 (amended): for every alive environment, Merge with a deep copy of
itself is the identity on all hint slots and on return_value_hints. -/
theorem C8_merge_self_id (e : Environment) (h : e.IsDead = false) :
    Environment.merge e e = some e := by
  simp [Environment.merge, h, zipWith_add_self, Hints.add_self]

/-- C8 witness: self-merge of a concrete alive environment. -/
theorem C8_merge_self_id_witness :
    Environment.merge cAlive cAlive = some cAlive :=
  C8_merge_self_id cAlive rfl

theorem writeRegisterHints_closure (e : Environment) (r : Reg) (h : Hints)
    (hr : r ≠ Reg.functionClosure) :
    (e.writeRegisterHints r h).closureHints = e.closureHints := by
  cases r
  · rfl
  · rfl
  · rfl
  · exact absurd rfl hr

theorem step_closureHints (hm : HeapModel) (e : Environment) (i : Instr)
    (h : writesClosureReg i = false) :
    (Environment.step hm e i).closureHints = e.closureHints := by
  cases i with
  | ldaConst c => rfl
  | ldar r => rfl
  | star r =>
    cases r with
    | functionClosure => simp [writesClosureReg] at h
    | param j => rfl
    | loc j => rfl
    | currentContext => rfl
  | mov src dst =>
    cases dst with
    | functionClosure => simp [writesClosureReg] at h
    | param j => rfl
    | loc j => rfl
    | currentContext => rfl
  | getSuperConstructor dst =>
    cases dst with
    | functionClosure => simp [writesClosureReg] at h
    | param j => rfl
    | loc j => rfl
    | currentContext => rfl
  | ret => rfl
  | clearInstr => rfl
  | killInstr => rfl

/-- Supporting fact (not itself a claim): the GetSuperConstructor
channel is a real mutation channel, so the amended C3 side condition
must exclude it. On a heap where the accumulator constant 7 is a
JSFunction whose map's prototype 17 is a constructor, a
GetSuperConstructor whose destination is the function-closure
pseudo-register overwrites closure_hints with {17}. -/
theorem getSuperConstructor_mutates_closure :
    (Environment.walk cHeapRich c3Env
      [Instr.getSuperConstructor Reg.functionClosure]).closureHints ≠
      c3Env.closureHints := by
  decide

/-- C3 (counterexample): a walk consisting of the single transfer
function Star with the function-closure pseudo-register as its operand
mutates closure_hints: register_hints hands Star a mutable reference to
closure_hints, which Star clears and overwrites with the accumulator
hints. -/
theorem C3_closure_hints_counterexample :
    (Environment.walk cHeapInert c3Env
      [Instr.star Reg.functionClosure]).closureHints ≠
      c3Env.closureHints := by
  decide

/-- C3 (amended): over every walk, under every heap model, none of
whose transfer functions writes a destination register that is the
function-closure pseudo-register (no Star, Mov or GetSuperConstructor
with that register as destination), closure_hints is identical at the
start and at the end of the walk. -/
theorem C3_closure_hints_preserved (hm : HeapModel) (prog : List Instr)
    (e : Environment) (h : ∀ i ∈ prog, writesClosureReg i = false) :
    (Environment.walk hm e prog).closureHints = e.closureHints := by
  induction prog generalizing e with
  | nil => rfl
  | cons x xs ih =>
    have hx := h x (List.mem_cons_self x xs)
    have hxs : ∀ i ∈ xs, writesClosureReg i = false :=
      fun i hi => h i (List.mem_cons_of_mem x hi)
    calc (Environment.walk hm (Environment.step hm e x) xs).closureHints
        = (Environment.step hm e x).closureHints :=
          ih (Environment.step hm e x) hxs
      _ = e.closureHints := step_closureHints hm e x hx

/-- C3 witness: a concrete walk free of closure-register writes,
including a GetSuperConstructor to a plain local register under the
rich heap model, preserves closure_hints. -/
theorem C3_closure_hints_preserved_witness :
    (Environment.walk cHeapRich cAlive
      [Instr.ldaConst 3, Instr.star (Reg.loc 0),
        Instr.getSuperConstructor (Reg.loc 0), Instr.ret,
        Instr.clearInstr]).closureHints = cAlive.closureHints :=
  C3_closure_hints_preserved cHeapRich
    [Instr.ldaConst 3, Instr.star (Reg.loc 0),
      Instr.getSuperConstructor (Reg.loc 0), Instr.ret, Instr.clearInstr]
    cAlive (by decide)

/-- C10: under the Merge preconditions (equal parameter and register
counts, well-formed layouts), the size-equality CHECK of Merge fires
exactly when the receiver is alive and the other environment is dead:
it cannot fire iff the other environment is alive or the receiver is
dead; and when it fires, Merge aborts. -/
theorem C10_merge_size_check (e other : Environment)
    (hp : e.parameterCount = other.parameterCount)
    (hr : e.registerCount = other.registerCount)
    (hwe : e.wellFormed) (hwo : other.wellFormed) :
    (Environment.mergeAbortsAtSizeCheck e other = true ↔
      ¬(other.IsDead = false ∨ e.IsDead = true)) ∧
    (Environment.mergeAbortsAtSizeCheck e other = true →
      Environment.merge e other = none) := by
  have hsz : e.ephemeralHintsSize = other.ephemeralHintsSize := by
    simp [Environment.ephemeralHintsSize, Environment.currentContextIndex,
      Environment.accumulatorIndex, hp, hr]
  have hsz2 : 0 < e.ephemeralHintsSize := by
    simp [Environment.ephemeralHintsSize]
  rcases hwe with he | he <;> rcases hwo with ho | ho
  · have hde : e.IsDead = true := (isDead_iff_length e).mpr he
    simp [Environment.mergeAbortsAtSizeCheck, hde]
  · have hde : e.IsDead = true := (isDead_iff_length e).mpr he
    simp [Environment.mergeAbortsAtSizeCheck, hde]
  · have hde : e.IsDead = false := (isDead_eq_false_iff e).mpr (by omega)
    have hdo : other.IsDead = true := (isDead_iff_length other).mpr ho
    have hlen : e.ephemeralHints.length ≠ other.ephemeralHints.length := by
      omega
    constructor
    · simp [Environment.mergeAbortsAtSizeCheck, hp, hr, hde, hdo, hlen]
    · intro _
      simp [Environment.merge, hp, hr, hde, hdo, hlen]
  · have hde : e.IsDead = false := (isDead_eq_false_iff e).mpr (by omega)
    have hdo : other.IsDead = false := (isDead_eq_false_iff other).mpr (by omega)
    have hlen : e.ephemeralHints.length = other.ephemeralHints.length := by
      omega
    simp [Environment.mergeAbortsAtSizeCheck, hp, hr, hde, hdo, hlen]

/-- C10 witness: concrete alive receiver and dead other environment. -/
theorem C10_merge_size_check_witness :
    (Environment.mergeAbortsAtSizeCheck cAlive c10Dead = true ↔
      ¬(c10Dead.IsDead = false ∨ cAlive.IsDead = true)) ∧
    (Environment.mergeAbortsAtSizeCheck cAlive c10Dead = true →
      Environment.merge cAlive c10Dead = none) :=
  C10_merge_size_check cAlive c10Dead rfl rfl (Or.inr rfl) (Or.inl rfl)

/-- C4: BailoutOnUninitialized kills the environment and returns true
exactly when the bail-on-uninitialized flag is set, the OSR flag is
not, and the slot's feedback nexus is uninitialized (an invalid slot
has no nexus); when it does not bail out, environment and broker are
untouched; and when it bails out, an InsufficientFeedback marker is
installed for the feedback source unless one is already cached. -/
theorem C4_bailout_on_uninitialized (flags : Flags) (ic : Nat → ICState)
    (e : Environment) (b : Broker) (slot : Option Nat) :
    ((bailoutOnUninitialized flags ic e b slot).1 = true ↔
      (flags.bailoutOnUninitialized = true ∧ flags.osr = false ∧
        ∃ s, slot = some s ∧ ic s = ICState.uninitialized)) ∧
    ((bailoutOnUninitialized flags ic e b slot).1 = true →
      (bailoutOnUninitialized flags ic e b slot).2.1.IsDead = true) ∧
    ((bailoutOnUninitialized flags ic e b slot).1 = false →
      (bailoutOnUninitialized flags ic e b slot).2.1 = e ∧
      (bailoutOnUninitialized flags ic e b slot).2.2 = b) ∧
    (∀ s, slot = some s →
      (bailoutOnUninitialized flags ic e b slot).1 = true →
      (bailoutOnUninitialized flags ic e b slot).2.2 =
        if b.hasFeedback s then b
        else b.setFeedback s FeedbackKind.insufficient) := by
  cases hb : flags.bailoutOnUninitialized with
  | false => simp [bailoutOnUninitialized, hb]
  | true =>
    cases ho : flags.osr with
    | true => simp [bailoutOnUninitialized, hb, ho]
    | false =>
      cases slot with
      | none => simp [bailoutOnUninitialized, hb, ho]
      | some s =>
        by_cases hic : ic s = ICState.uninitialized
        · simp [bailoutOnUninitialized, hb, ho, hic, Environment.kill,
            Environment.IsDead]
        · simp [bailoutOnUninitialized, hb, ho, hic]

/-- C4 witness: with the flag set, no OSR, an uninitialized slot 0 and
an empty broker cache, the bailout fires, the environment dies, and the
InsufficientFeedback marker is installed. -/
theorem C4_bailout_on_uninitialized_witness :
    (bailoutOnUninitialized c4Flags c4IC cAlive c4Broker (some 0)).1 = true ∧
    (bailoutOnUninitialized c4Flags c4IC cAlive c4Broker
      (some 0)).2.1.IsDead = true ∧
    (bailoutOnUninitialized c4Flags c4IC cAlive c4Broker (some 0)).2.2 =
      c4Broker.setFeedback 0 FeedbackKind.insufficient := by
  have h := C4_bailout_on_uninitialized c4Flags c4IC cAlive c4Broker (some 0)
  have h1 : (bailoutOnUninitialized c4Flags c4IC cAlive c4Broker
      (some 0)).1 = true :=
    h.1.mpr ⟨rfl, rfl, 0, rfl, rfl⟩
  exact ⟨h1, h.2.1 h1, by decide⟩

theorem runSerializer_marked (m : SerializedSet) (p : Nat × Nat) (w : Hints)
    (h : m.isMarked p = true) :
    runSerializer m p w = ⟨Hints.empty, m, false⟩ := by
  simp [runSerializer, h]

theorem isMarked_mark (m : SerializedSet) (p q : Nat × Nat)
    (h : m.isMarked p = true) : (m.mark q).isMarked p = true := by
  simp [SerializedSet.isMarked, SerializedSet.mark] at h ⊢
  exact Or.inr h

theorem isMarked_runSerializer (m : SerializedSet) (p q : Nat × Nat)
    (w : Hints) (h : m.isMarked p = true) :
    (runSerializer m q w).marks.isMarked p = true := by
  unfold runSerializer
  by_cases hq : m.isMarked q = true
  · simp [hq]
    exact h
  · simp [Bool.not_eq_true] at hq
    simp [hq]
    exact isMarked_mark m p q h

theorem isMarked_runSeqMarks (p : Nat × Nat)
    (calls : List ((Nat × Nat) × Hints)) (m : SerializedSet)
    (h : m.isMarked p = true) : (runSeqMarks m calls).isMarked p = true := by
  induction calls generalizing m with
  | nil => exact h
  | cons c cs ih =>
    exact ih ((runSerializer m c.1 c.2).marks)
      (isMarked_runSerializer m p c.1 c.2 h)

/-- C5: the first Run on an unmarked (shared, feedback_vector) pair
traverses the bytecode, returns the walk's hints and marks the pair;
after any further sequence of Run invocations the pair stays marked,
and every subsequent Run on it performs no traversal and returns empty
Hints. -/
theorem C5_serialized_at_most_once (m : SerializedSet) (p : Nat × Nat)
    (w : Hints) (h : m.isMarked p = false) :
    (runSerializer m p w).traversed = true ∧
    (runSerializer m p w).result = w ∧
    (runSerializer m p w).marks.isMarked p = true ∧
    ∀ calls w2,
      (runSerializer (runSeqMarks (runSerializer m p w).marks calls) p
        w2).traversed = false ∧
      (runSerializer (runSeqMarks (runSerializer m p w).marks calls) p
        w2).result = Hints.empty := by
  have hrun : runSerializer m p w = ⟨w, m.mark p, true⟩ := by
    simp [runSerializer, h]
  have hmk : (runSerializer m p w).marks.isMarked p = true := by
    rw [hrun]
    simp [SerializedSet.isMarked, SerializedSet.mark]
  refine ⟨by rw [hrun], by rw [hrun], hmk, ?_⟩
  intro calls w2
  have hm2 : (runSeqMarks (runSerializer m p w).marks calls).isMarked p
      = true :=
    isMarked_runSeqMarks p calls _ hmk
  rw [runSerializer_marked _ _ _ hm2]
  exact ⟨rfl, rfl⟩

/-- C5 witness: a concrete first Run followed by an unrelated Run and a
repeated Run on the same pair. -/
theorem C5_serialized_at_most_once_witness :
    (runSerializer ⟨[]⟩ (1, 2) (Hints.empty.addConstant 3)).traversed
      = true ∧
    (runSerializer ⟨[]⟩ (1, 2) (Hints.empty.addConstant 3)).result
      = Hints.empty.addConstant 3 ∧
    (runSerializer
      (runSeqMarks (runSerializer ⟨[]⟩ (1, 2)
        (Hints.empty.addConstant 3)).marks [((4, 5), Hints.empty.addMap 6)])
      (1, 2) (Hints.empty.addConstant 7)).traversed = false ∧
    (runSerializer
      (runSeqMarks (runSerializer ⟨[]⟩ (1, 2)
        (Hints.empty.addConstant 3)).marks [((4, 5), Hints.empty.addMap 6)])
      (1, 2) (Hints.empty.addConstant 7)).result = Hints.empty := by
  have h := C5_serialized_at_most_once ⟨[]⟩ (1, 2)
    (Hints.empty.addConstant 3) (by decide)
  exact ⟨h.1, h.2.1,
    (h.2.2.2 [((4, 5), Hints.empty.addMap 6)] (Hints.empty.addConstant 7)).1,
    (h.2.2.2 [((4, 5), Hints.empty.addMap 6)] (Hints.empty.addConstant 7)).2⟩

theorem listResize_length (l : List Hints) (n : Nat) :
    (Environment.listResize l n).length = n := by
  simp [Environment.listResize]
  omega

theorem getD_replicate_empty (k i : Nat) :
    (List.replicate k Hints.empty).getD i Hints.empty = Hints.empty := by
  by_cases h : i < k
  · rw [List.getD_eq_getElem _ _ (by simpa using h)]
    simp
  · rw [List.getD_eq_default _ _ (by simpa using Nat.le_of_not_lt h)]

theorem listResize_getD_lt (l : List Hints) (n i : Nat) (h1 : i < l.length)
    (h2 : i < n) :
    (Environment.listResize l n).getD i Hints.empty = l.getD i Hints.empty := by
  unfold Environment.listResize
  rw [List.getD_append _ _ _ _ (by simp; omega)]
  rw [List.getD_eq_getElem _ _ (by simp; omega), List.getD_eq_getElem _ _ h1]
  exact List.getElem_take l

theorem listResize_getD_pad (l : List Hints) (n i : Nat) (h1 : l.length ≤ i)
    (_h2 : i < n) :
    (Environment.listResize l n).getD i Hints.empty = Hints.empty := by
  unfold Environment.listResize
  rw [List.getD_append_right _ _ _ _ (by simp; omega)]
  exact getD_replicate_empty _ _

/-- C6: under with_spread, RunChildSerializer drops the last argument
(the spread), resizes the remainder to the callee's parameter count
(filling with empty HintSets) and recurses with with_spread false; the
resulting vector has exactly parameter-count entries, carries the
non-spread arguments at their positions, and is empty from the last
remaining argument onward; with a single (spread-only) argument every
parameter is the empty HintSet. -/
theorem C6_spread_call_padding (P : Nat) (args : List Hints)
    (h : args ≠ []) :
    (runChildSerializerCall P args true).2 = false ∧
    (runChildSerializerCall P args true).1.length = P ∧
    (∀ i, i + 1 < args.length → i < P →
      (runChildSerializerCall P args true).1.getD i Hints.empty =
        args.getD i Hints.empty) ∧
    (∀ i, args.length - 1 ≤ i → i < P →
      (runChildSerializerCall P args true).1.getD i Hints.empty =
        Hints.empty) ∧
    (args.length = 1 →
      (runChildSerializerCall P args true).1 =
        List.replicate P Hints.empty) := by
  have hfst : (runChildSerializerCall P args true).1 =
      Environment.listResize args.dropLast P := rfl
  refine ⟨rfl, by rw [hfst]; exact listResize_length _ _, ?_, ?_, ?_⟩
  · intro i hi hiP
    rw [hfst]
    have hd : i < args.dropLast.length := by simp; omega
    rw [listResize_getD_lt _ _ _ hd hiP]
    rw [List.getD_eq_getElem _ _ hd, List.getD_eq_getElem _ _ (by omega)]
    exact List.getElem_dropLast args i hd
  · intro i hi hiP
    rw [hfst]
    exact listResize_getD_pad _ _ _ (by simp; omega) hiP
  · intro h1
    obtain ⟨a, rfl⟩ := List.length_eq_one.mp h1
    rw [hfst]
    simp [Environment.listResize]

/-- C6 witness: a spread call whose only argument is the spread itself
invokes the child with every parameter an empty HintSet and with_spread
false. -/
theorem C6_spread_call_padding_witness :
    (runChildSerializerCall 2 [Hints.empty.addConstant 8] true).2 = false ∧
    (runChildSerializerCall 2 [Hints.empty.addConstant 8] true).1 =
      List.replicate 2 Hints.empty := by
  have h := C6_spread_call_padding 2 [Hints.empty.addConstant 8] (by decide)
  exact ⟨h.1, h.2.2.2.2 rfl⟩

theorem getD_range_map (f : Nat → Hints) (n i : Nat) (h : i < n) :
    ((List.range n).map f).getD i Hints.empty = f i := by
  rw [List.getD_eq_getElem _ _ (by simpa using h)]
  simp

theorem getD_set_ne (l : List Hints) (j i : Nat) (v : Hints) (h : i ≠ j) :
    (l.set j v).getD i Hints.empty = l.getD i Hints.empty := by
  by_cases hi : i < l.length
  · rw [List.getD_eq_getElem _ _ (by simpa using hi),
      List.getD_eq_getElem _ _ hi]
    exact List.getElem_set_ne (fun hji => h hji.symm) _
  · rw [List.getD_eq_default _ _ (by simpa using Nat.le_of_not_lt hi),
      List.getD_eq_default _ _ (Nat.le_of_not_lt hi)]

theorem inlined_ephemeral_getD (shape : FunctionShape)
    (closureId : Option Nat) (blueprintId : Nat) (newTarget : Option Hints)
    (args : List Hints) (i : Nat) (hi : i < shape.parameterCount) :
    (mkInlinedEnvironment shape closureId blueprintId newTarget
        args).ephemeralHints.getD i Hints.empty =
      inlinedSeed shape.parameterCount args i := by
  have hrange : i < shape.parameterCount + shape.registerCount + 2 := by omega
  have hpre : (inlinedEphemeralPre shape args).getD i Hints.empty =
      inlinedSeed shape.parameterCount args i :=
    getD_range_map _ _ _ hrange
  cases hreg : shape.newTargetReg with
  | none =>
    cases newTarget with
    | none => simpa [mkInlinedEnvironment, hreg] using hpre
    | some nt => simpa [mkInlinedEnvironment, hreg] using hpre
  | some r =>
    cases newTarget with
    | none => simpa [mkInlinedEnvironment, hreg] using hpre
    | some nt =>
      have hne : i ≠ shape.parameterCount + r := by omega
      simp only [mkInlinedEnvironment, hreg]
      rw [getD_set_ne _ _ _ _ hne]
      exact hpre

/-- C9: in the inlined Environment constructor, the first
min(arguments, parameter_count) parameter slots hold exactly the
corresponding argument HintSets, and every parameter slot from
arguments.size() up to parameter_count holds exactly the single-element
HintSet containing the canonical undefined constant. -/
theorem C9_inlined_parameter_seeding (shape : FunctionShape)
    (closureId : Option Nat) (blueprintId : Nat) (newTarget : Option Hints)
    (args : List Hints) :
    (∀ i, i < min args.length shape.parameterCount →
      (mkInlinedEnvironment shape closureId blueprintId newTarget
          args).ephemeralHints.getD i Hints.empty =
        args.getD i Hints.empty) ∧
    (∀ i, args.length ≤ i → i < shape.parameterCount →
      (mkInlinedEnvironment shape closureId blueprintId newTarget
          args).ephemeralHints.getD i Hints.empty = undefinedHint) := by
  constructor
  · intro i hi
    rw [inlined_ephemeral_getD shape closureId blueprintId newTarget args i
      (by omega)]
    simp [inlinedSeed, hi]
  · intro i hlen hP
    rw [inlined_ephemeral_getD shape closureId blueprintId newTarget args i hP]
    have hnot : ¬(i < min args.length shape.parameterCount) := by omega
    simp [inlinedSeed, hnot, hlen, hP]

/-- C9 witness: a three-parameter callee receiving one argument has the
argument in slot 0 and the undefined singleton in slots 1 and 2. -/
theorem C9_inlined_parameter_seeding_witness :
    (mkInlinedEnvironment ⟨3, 1, none⟩ (some 1) 2 none
        [Hints.empty.addConstant 8]).ephemeralHints.getD 0 Hints.empty =
      Hints.empty.addConstant 8 ∧
    (mkInlinedEnvironment ⟨3, 1, none⟩ (some 1) 2 none
        [Hints.empty.addConstant 8]).ephemeralHints.getD 1 Hints.empty =
      undefinedHint ∧
    (mkInlinedEnvironment ⟨3, 1, none⟩ (some 1) 2 none
        [Hints.empty.addConstant 8]).ephemeralHints.getD 2 Hints.empty =
      undefinedHint := by
  have h := C9_inlined_parameter_seeding ⟨3, 1, none⟩ (some 1) 2 none
    [Hints.empty.addConstant 8]
  exact ⟨h.1 0 (by decide), h.2 1 (by decide) (by decide),
    h.2 2 (by decide) (by decide)⟩

end V8Serializer
